import Mathlib

/-!
Verification development for the tomoseg GUI annotation tool
(`tomoseg_gui.py`).  The Python source is shallowly embedded: the widget
state (`ImageLabel`, `MainWindow`) becomes Lean structures with explicit
state-passing, numpy array operations (`vstack`, `hstack`, `percentile`,
`clip`, float division, `astype(uint8)`) are modelled exactly, including
the NaN/Inf values float division can produce, and operations that can
raise Python exceptions return `Option`/`Except`.  Qt library behaviour
that no property depends on (pixmap scaling to the window, painting,
dialog layout) is not modelled; where a Qt value matters (a null
`QPixmap()` before an image is loaded) it is represented explicitly.
-/

/-- A `QPoint`: 2D integer pixel coordinate (Qt stores ints). -/
abbrev Point : Type := ℤ × ℤ

/-- Manhattan length of the difference of two points, as in
`(point - pos).manhattanLength()` (Qt: `|dx| + |dy|`). -/
def manhattan (p q : Point) : ℤ := |p.1 - q.1| + |p.2 - q.2|

/-- Annotation mode: the source uses the strings `'foreground'` and
`'background'`; only these two values are ever assigned. -/
inductive Mode where
  | foreground
  | background
deriving DecidableEq

/-- Mouse button of a press event (only left and right are handled). -/
inductive MButton where
  | left
  | right
  | other
deriving DecidableEq

/-- A displayed raster: rows of 8-bit pixel values.  A pixel is `none`
when the value fed to the `uint8` cast was NaN/Inf (undefined behaviour
in numpy, no defined result). -/
abbrev Raster : Type := List (List (Option ℕ))

/-- State of the `ImageLabel` widget (`tomoseg_gui.py`, class
`ImageLabel`): the two ordered point lists, the current mode, the
displayed pixmap (`none` models the null `QPixmap()`), and the marker
radius `point_size`. -/
structure ImageLabel where
  points_foreground : List Point
  points_background : List Point
  current_mode : Mode
  image : Option Raster
  point_size : ℤ

/-- ImageLabel.__init__: empty point lists, foreground mode, null
pixmap, point_size 5. -/
def ImageLabel.init : ImageLabel :=
  { points_foreground := []
    points_background := []
    current_mode := Mode.foreground
    image := none
    point_size := 5 }

/-- ImageLabel.set_image: loads a raster from a file path (decoding and
the optional `scaled` fit are Qt library calls, so the decoded raster is
taken as an argument), shows it, and resets both point lists. -/
def ImageLabel.set_image (st : ImageLabel) (raster : Raster) : ImageLabel :=
  { st with
    image := some raster
    points_foreground := []
    points_background := [] }

/-- ImageLabel.set_mrc_image: installs an already rendered pixmap (again
the `scaled` fit is a Qt call on the pixmap) and resets both point
lists. -/
def ImageLabel.set_mrc_image (st : ImageLabel) (raster : Raster) : ImageLabel :=
  { st with
    image := some raster
    points_foreground := []
    points_background := [] }

/-- Python `list.remove(x)`: removes the first element equal to `x`
(`x` is always a member at the call site in `remove_point`). -/
def listRemove (x : Point) : List Point → List Point
  | [] => []
  | p :: ps => if p = x then ps else p :: listRemove x ps

/-- The inner loop of ImageLabel.remove_point over one list: the first
point (in list order) whose Manhattan distance to `pos` is at most the
radius, if any. -/
def findMatch (r : ℤ) (pos : Point) : List Point → Option Point
  | [] => none
  | p :: ps => if manhattan p pos ≤ r then some p else findMatch r pos ps

/-- ImageLabel.remove_point: radius is `point_size + 2`; iterates over
`[points_foreground, points_background]` and on the first point within
the radius calls `point_list.remove(point)` and returns. -/
def ImageLabel.remove_point (st : ImageLabel) (pos : Point) : ImageLabel :=
  let r := st.point_size + 2
  match findMatch r pos st.points_foreground with
  | some p => { st with points_foreground := listRemove p st.points_foreground }
  | none =>
    match findMatch r pos st.points_background with
    | some p => { st with points_background := listRemove p st.points_background }
    | none => st

/-- ImageLabel.mousePressEvent: left click appends `event.pos()` to the
list selected by `current_mode`; right click calls `remove_point`.  No
guard checks whether an image is loaded. -/
def ImageLabel.mousePressEvent (st : ImageLabel) (b : MButton) (pos : Point) : ImageLabel :=
  match b with
  | MButton.left =>
    match st.current_mode with
    | Mode.foreground => { st with points_foreground := st.points_foreground ++ [pos] }
    | Mode.background => { st with points_background := st.points_background ++ [pos] }
  | MButton.right => st.remove_point pos
  | MButton.other => st

/-- Insert into a sorted list of rationals, keeping order. -/
def insertSorted (x : ℚ) : List ℚ → List ℚ
  | [] => [x]
  | y :: ys => if x ≤ y then x :: y :: ys else y :: insertSorted x ys

/-- Sorting step of `np.percentile` (numpy sorts the flattened data
before selecting; insertion sort here, only sortedness matters). -/
def sortQ : List ℚ → List ℚ
  | [] => []
  | x :: xs => insertSorted x (sortQ xs)

/-- Linear-interpolation selection step of np.percentile over exact
rationals: on sorted data `a` of length `n`, the virtual index is
`q/100 * (n-1)`; the result interpolates between the two neighbouring
entries (the upper neighbour is absent at the top end). -/
def npInterp (q : ℚ) (a : List ℚ) : Option ℚ :=
  let n : ℕ := a.length
  let pos : ℚ := q / 100 * ((n : ℚ) - 1)
  let i : ℕ := Int.toNat ⌊pos⌋
  let frac : ℚ := pos - (i : ℚ)
  match a[i]?, a[i+1]? with
  | some lo, some hi => some (lo + frac * (hi - lo))
  | some lo, none => some lo
  | none, _ => none

/-- np.percentile with the default linear interpolation: sort the
data, then select by interpolation.  Returns `none` on an empty array
(numpy raises there). -/
def npPercentile (q : ℚ) (xs : List ℚ) : Option ℚ :=
  match sortQ xs with
  | [] => none
  | x :: rest => npInterp q (x :: rest)

/-- np.clip(v, lo, hi) = np.minimum(np.maximum(v, lo), hi). -/
def npClip (v lo hi : ℚ) : ℚ := min (max v lo) hi

/-- A numpy float value: finite, NaN, or a signed infinity.  All slice
data and percentiles are finite; NaN/Inf only arise from the division
in the normalization. -/
inductive NpVal where
  | fin (q : ℚ)
  | nan
  | posInf
  | negInf
deriving DecidableEq

/-- IEEE division of two finite values as numpy performs it: division
by zero yields NaN for a zero numerator and a signed infinity
otherwise (numpy emits a RuntimeWarning, not an exception). -/
def npDivVal (a b : ℚ) : NpVal :=
  if b = 0 then
    if a = 0 then NpVal.nan
    else if 0 < a then NpVal.posInf
    else NpVal.negInf
  else NpVal.fin (a / b)

/-- Multiplication of a possibly non-finite value by the positive
finite constant 255: NaN and infinities propagate. -/
def npMul255 : NpVal → NpVal
  | NpVal.fin a => NpVal.fin (a * 255)
  | NpVal.nan => NpVal.nan
  | NpVal.posInf => NpVal.posInf
  | NpVal.negInf => NpVal.negInf

/-- astype(np.uint8) on one value: truncation toward zero for finite
values representable in 8 bits; for NaN, infinities and out-of-range
values the conversion is undefined behaviour in numpy (`none`). -/
def npCastUint8 : NpVal → Option ℕ
  | NpVal.fin q => if 0 ≤ q ∧ q < 256 then some (Int.toNat ⌊q⌋) else none
  | _ => none

/-- One slice of the MRC volume: a 2D array of (finite) sample values. -/
abbrev Slice : Type := List (List ℚ)

/-- The numeric core of MainWindow.show_mrc_slice: percentiles of the
flattened slice, clip, normalize, scale by 255.  `none` when
`np.percentile` raises (empty slice). -/
def renderSlice (slice : Slice) : Option (List (List NpVal)) := do
  let p01 ← npPercentile 1 slice.flatten
  let p99 ← npPercentile 99 slice.flatten
  pure (slice.map (fun row => row.map (fun v =>
    npMul255 (npDivVal (npClip v p01 p99 - p01) (p99 - p01)))))

/-- renderSlice followed by the `astype(np.uint8)` cast that feeds the
QImage: the displayed 8-bit raster. -/
def renderedRaster (slice : Slice) : Option Raster :=
  (renderSlice slice).map (fun img => img.map (fun row => row.map npCastUint8))

/-- Spec-side pixel formula, from the spec's words: clip `v` to
`[p01, p99]`, normalize `(clipped - p01) / (p99 - p01) * 255`, cast to
8-bit unsigned by truncation (truncation of a value in `[0, 255]` is
the floor). -/
def specPixel (p01 p99 v : ℚ) : ℕ :=
  Int.toNat ⌊(min (max v p01) p99 - p01) / (p99 - p01) * 255⌋

/-- State of the MainWindow (`tomoseg_gui.py`, class `MainWindow`):
the canvas widget plus the MRC bookkeeping fields. -/
structure MainWindow where
  image_label : ImageLabel
  mrc_data : Option (List Slice)
  mrc_filename : String
  current_slice : ℕ
  total_slices : ℕ

/-- MainWindow.__init__ (UI chrome omitted): fresh ImageLabel, mode set
to foreground again, no MRC loaded. -/
def MainWindow.init : MainWindow :=
  { image_label := { ImageLabel.init with current_mode := Mode.foreground }
    mrc_data := none
    mrc_filename := ""
    current_slice := 0
    total_slices := 0 }

/-- MainWindow.show_mrc_slice: renders `mrc_data[slice_index]` and
installs it via `set_mrc_image` (which resets the point lists).
`none` models an uncaught Python exception on that path: `mrc_data`
being None, the index being out of range, or `np.percentile` on an
empty slice. -/
def MainWindow.show_mrc_slice (w : MainWindow) (slice_index : ℕ) : Option MainWindow := do
  let data ← w.mrc_data
  let slice ← data[slice_index]?
  let raster ← renderedRaster slice
  pure { w with image_label := w.image_label.set_mrc_image raster }

/-- Result of MainWindow.open_mrc_file: the whole body runs inside
`try`, so any exception is caught and shown as a critical dialog
(the fields assigned before the failure keep their new values). -/
inductive OpenResult where
  | ok (w : MainWindow)
  | errorDialog (w : MainWindow)

/-- MainWindow.open_mrc_file: on a parsed MRC volume, stores the data
and filename, sets `current_slice = len(data) // 2` and
`total_slices = shape[0] - 1`, then shows the middle slice; a failure
inside `show_mrc_slice` is caught by the surrounding `except`. -/
def MainWindow.open_mrc_file (w : MainWindow) (data : List Slice) (filename : String) :
    OpenResult :=
  let w1 := { w with
    mrc_data := some data
    mrc_filename := filename
    current_slice := data.length / 2
    total_slices := data.length - 1 }
  match w1.show_mrc_slice (data.length / 2) with
  | some w2 => OpenResult.ok w2
  | none => OpenResult.errorDialog w1

/-- MainWindow.slice_changed: stores the new index and re-renders that
slice (no try/except of its own; `none` is an uncaught exception). -/
def MainWindow.slice_changed (w : MainWindow) (value : ℕ) : Option MainWindow :=
  MainWindow.show_mrc_slice { w with current_slice := value } value

/-- MainWindow.clear_points: empties both lists. -/
def MainWindow.clear_points (w : MainWindow) : MainWindow :=
  { w with image_label := { w.image_label with
      points_foreground := []
      points_background := [] } }

/-- MainWindow.set_foreground_mode / set_background_mode. -/
def MainWindow.set_mode (w : MainWindow) (m : Mode) : MainWindow :=
  { w with image_label := { w.image_label with current_mode := m } }

/-- Shape-and-content model of a numpy array of integers or floats, as
built in MainWindow.save_points.  `shape` is the numpy shape tuple,
`data` the flattened contents, `isFloat` the dtype class
(`np.array([])` is float64; the point rows and the labels are int). -/
structure NpArr where
  shape : List ℕ
  data : List ℤ
  isFloat : Bool
deriving DecidableEq

/-- np.atleast_2d on an at-most-2D array: a 1-D array of length `n`
becomes shape `(1, n)`; a 2-D array is unchanged. -/
def npAtleast2d (a : NpArr) : NpArr :=
  match a.shape with
  | [n] => { a with shape := [1, n] }
  | _ => a

/-- np.vstack of two at-most-2D arrays: atleast_2d both, then
concatenate along axis 0, which raises ValueError unless the column
counts agree. -/
def npVstack (a b : NpArr) : Except String NpArr :=
  let a2 := npAtleast2d a
  let b2 := npAtleast2d b
  match a2.shape, b2.shape with
  | [m, c1], [k, c2] =>
    if c1 = c2 then
      Except.ok { shape := [m + k, c1], data := a2.data ++ b2.data,
                  isFloat := a2.isFloat || b2.isFloat }
    else Except.error "ValueError"
  | _, _ => Except.error "ValueError"

/-- np.array([[p.x(), p.y()] for p in pts]): for a nonempty list an
int array of shape (n, 2); for an empty list `np.array([])`, a float64
array of shape (0,). -/
def np_array_points (pts : List Point) : NpArr :=
  match pts with
  | [] => { shape := [0], data := [], isFloat := true }
  | _ => { shape := [pts.length, 2]
           data := pts.flatMap (fun p => [p.1, p.2])
           isFloat := false }

/-- np.hstack((np.ones(m, dtype=int), np.zeros(k, dtype=int))): the
1-D int label vector, m ones then k zeros. -/
def npLabels (m k : ℕ) : NpArr :=
  { shape := [m + k]
    data := List.replicate m 1 ++ List.replicate k 0
    isFloat := false }

/-- The npz archive contents written by save_points. -/
structure Archive where
  filename : String
  points : NpArr
  labels : NpArr
deriving DecidableEq

/-- Environment for one save_points call: whether `input_points`
already exists, and whether `os.makedirs` / `np.savez` would succeed. -/
structure SaveEnv where
  dirExists : Bool
  makedirsOk : Bool
  savezOk : Bool

/-- Outcome of one save_points call at the UI-action boundary. -/
inductive SaveOutcome where
  | uncaught (msg : String)
  | modalError
  | saved (archive : Archive)
deriving DecidableEq

/-- MainWindow.save_points: `os.makedirs` and the whole array assembly
run OUTSIDE the try block, so a failure there escapes the handler as an
uncaught exception; only `np.savez` is inside `try`, with the except
branch showing a critical dialog.  (The save path computation
`input_points/<basename>_points.npz` is string plumbing with no claim
about it and is not modelled.) -/
def MainWindow.save_points (env : SaveEnv) (w : MainWindow) : SaveOutcome :=
  if !env.dirExists && !env.makedirsOk then
    SaveOutcome.uncaught "OSError: makedirs failed"
  else
    match npVstack (np_array_points w.image_label.points_foreground)
                   (np_array_points w.image_label.points_background) with
    | Except.error e => SaveOutcome.uncaught e
    | Except.ok all_points =>
      let labels := npLabels w.image_label.points_foreground.length
                             w.image_label.points_background.length
      let archive : Archive :=
        { filename := if w.mrc_filename ≠ "" then w.mrc_filename else ""
          points := all_points
          labels := labels }
      if env.savezOk then SaveOutcome.saved archive
      else SaveOutcome.modalError

/-- Fixture: canvas whose foreground list holds a far-but-in-radius
point before a nearer one. -/
def stFirstMatch : ImageLabel :=
  { ImageLabel.init with points_foreground := [((5:ℤ),(0:ℤ)), ((0:ℤ),(0:ℤ))] }

/-- Fixture: window with exactly one foreground point and no
background points recorded. -/
def wOneForeground : MainWindow :=
  { MainWindow.init with
    image_label := { ImageLabel.init with points_foreground := [((10:ℤ),(20:ℤ))] } }

/-- Fixture: window with a 2-slice MRC volume loaded and one
foreground point recorded. -/
def wTwoSlices : MainWindow :=
  { MainWindow.init with
    image_label := { ImageLabel.init with points_foreground := [((1:ℤ),(1:ℤ))] }
    mrc_data := some [[[2,3]], [[2,3]]]
    current_slice := 0
    total_slices := 1 }

/-- Fixture: the window state after `wTwoSlices.slice_changed 1`. -/
def wTwoSlicesAfter : MainWindow :=
  { image_label :=
      { points_foreground := []
        points_background := []
        current_mode := Mode.foreground
        image := some [[some 0, some 255]]
        point_size := 5 }
    mrc_data := some [[[2,3]], [[2,3]]]
    mrc_filename := ""
    current_slice := 1
    total_slices := 1 }

/-- Fixture: a 10-slice volumetric stack of 1x2 slices. -/
def stack10 : List Slice := List.replicate 10 [[0, 100]]

theorem insertSorted_ne_nil (x : ℚ) (l : List ℚ) : insertSorted x l ≠ [] := by
  cases l with
  | nil => simp [insertSorted]
  | cons y ys =>
    simp only [insertSorted]
    split <;> simp

theorem sortQ_ne_nil (xs : List ℚ) (h : xs ≠ []) : sortQ xs ≠ [] := by
  cases xs with
  | nil => exact absurd rfl h
  | cons x l => exact insertSorted_ne_nil x (sortQ l)

theorem npInterp_isSome (q : ℚ) (a : List ℚ) (ha : a ≠ [])
    (hq0 : 0 ≤ q) (hq1 : q ≤ 100) : ∃ v, npInterp q a = some v := by
  have hn : 0 < a.length := List.length_pos.mpr ha
  have hpos : q / 100 * ((a.length : ℚ) - 1) ≤ (a.length : ℚ) - 1 := by
    have h1 : q / 100 ≤ 1 := by linarith [div_le_one_of_le₀ hq1 (by norm_num : (0:ℚ) ≤ 100)]
    have h2 : (0:ℚ) ≤ (a.length : ℚ) - 1 := by
      have : (1:ℚ) ≤ (a.length : ℚ) := by exact_mod_cast hn
      linarith
    nlinarith
  have hfloor : ⌊q / 100 * ((a.length : ℚ) - 1)⌋ ≤ (a.length : ℤ) - 1 := by
    have hcast : ((a.length : ℚ) - 1) = (((a.length : ℤ) - 1 : ℤ) : ℚ) := by push_cast; ring
    calc ⌊q / 100 * ((a.length : ℚ) - 1)⌋
        ≤ ⌊((a.length : ℚ) - 1)⌋ := Int.floor_le_floor hpos
      _ = (a.length : ℤ) - 1 := by rw [hcast, Int.floor_intCast]
  have hi : Int.toNat ⌊q / 100 * ((a.length : ℚ) - 1)⌋ < a.length := by omega
  simp only [npInterp]
  rw [List.getElem?_eq_getElem hi]
  cases h2 : a[Int.toNat ⌊q / 100 * ((a.length : ℚ) - 1)⌋ + 1]? with
  | none => exact ⟨_, rfl⟩
  | some hi2 => exact ⟨_, rfl⟩

theorem npPercentile_isSome (q : ℚ) (xs : List ℚ) (hx : xs ≠ [])
    (hq0 : 0 ≤ q) (hq1 : q ≤ 100) : ∃ v, npPercentile q xs = some v := by
  simp only [npPercentile]
  cases hs : sortQ xs with
  | nil => exact absurd hs (sortQ_ne_nil xs hx)
  | cons y rest => exact npInterp_isSome q (y :: rest) (by simp) hq0 hq1

theorem findMatch_eq_none (r : ℤ) (pos : Point) (l : List Point)
    (h : ∀ p ∈ l, r < manhattan p pos) : findMatch r pos l = none := by
  induction l with
  | nil => rfl
  | cons p ps ih =>
    simp only [findMatch]
    rw [if_neg (not_le.mpr (h p (List.mem_cons_self p ps)))]
    exact ih fun q hq => h q (List.mem_cons_of_mem p hq)

theorem findMatch_first (r : ℤ) (pos : Point) (l : List Point) (i : ℕ) (p : Point)
    (hp : l[i]? = some p) (hm : manhattan p pos ≤ r)
    (hfar : ∀ j q, j < i → l[j]? = some q → r < manhattan q pos) :
    findMatch r pos l = some p := by
  induction l generalizing i with
  | nil => simp at hp
  | cons x xs ih =>
    cases i with
    | zero =>
      simp only [List.getElem?_cons_zero, Option.some_inj] at hp
      subst hp
      simp [findMatch, hm]
    | succ n =>
      have hx : r < manhattan x pos :=
        hfar 0 x (Nat.succ_pos n) (by simp)
      simp only [findMatch]
      rw [if_neg (not_le.mpr hx)]
      exact ih n (by simpa using hp)
        fun j q hj hq => hfar (j + 1) q (Nat.succ_lt_succ hj) (by simpa using hq)

theorem listRemove_eq_eraseIdx (l : List Point) (i : ℕ) (p : Point)
    (hp : l[i]? = some p) (hne : ∀ j q, j < i → l[j]? = some q → q ≠ p) :
    listRemove p l = l.eraseIdx i := by
  induction l generalizing i with
  | nil => simp at hp
  | cons x xs ih =>
    cases i with
    | zero =>
      simp only [List.getElem?_cons_zero, Option.some_inj] at hp
      subst hp
      simp [listRemove, List.eraseIdx]
    | succ n =>
      have hx : x ≠ p := hne 0 x (Nat.succ_pos n) (by simp)
      simp only [listRemove, List.eraseIdx, if_neg hx]
      rw [ih n (by simpa using hp)
        fun j q hj hq => hne (j + 1) q (Nat.succ_lt_succ hj) (by simpa using hq)]

theorem listRemove_length (x : Point) (l : List Point) :
    l.length ≤ (listRemove x l).length + 1 := by
  induction l with
  | nil => simp [listRemove]
  | cons p ps ih =>
    simp only [listRemove]
    split
    · simp
    · simpa using Nat.succ_le_succ ih

theorem foldl_left_clicks (clicks : List Point) (st : ImageLabel)
    (h : st.current_mode = Mode.foreground) :
    (clicks.foldl (fun s p => s.mousePressEvent MButton.left p) st).points_foreground
        = st.points_foreground ++ clicks ∧
      (clicks.foldl (fun s p => s.mousePressEvent MButton.left p) st).points_background
        = st.points_background := by
  induction clicks generalizing st with
  | nil => simp
  | cons c cs ih =>
    simp only [List.foldl_cons]
    have hstep : st.mousePressEvent MButton.left c
        = { st with points_foreground := st.points_foreground ++ [c] } := by
      simp [ImageLabel.mousePressEvent, h]
    rw [hstep]
    have := ih { st with points_foreground := st.points_foreground ++ [c] } h
    simpa using this

/-- C6: for every prior state of the two point lists, loading a new
source — a flat raster via `set_image` or a rendered MRC slice via
`set_mrc_image` — leaves both the foreground and background point
lists empty. -/
theorem C6_load_resets_points (st : ImageLabel) (raster : Raster) :
    (st.set_image raster).points_foreground = [] ∧
      (st.set_image raster).points_background = [] ∧
      (st.set_mrc_image raster).points_foreground = [] ∧
      (st.set_mrc_image raster).points_background = [] :=
  ⟨rfl, rfl, rfl, rfl⟩

/-- C10: in the initial state of the application the active annotation
mode is foreground, and every left-click addPoint performed before any
mode toggle appends to the foreground list (in click order) and never
to the background list. -/
theorem C10_initial_mode_foreground :
    MainWindow.init.image_label.current_mode = Mode.foreground ∧
      ∀ clicks : List Point,
        (clicks.foldl (fun s p => s.mousePressEvent MButton.left p)
            MainWindow.init.image_label).points_foreground = clicks ∧
          (clicks.foldl (fun s p => s.mousePressEvent MButton.left p)
              MainWindow.init.image_label).points_background = [] := by
  refine ⟨rfl, fun clicks => ?_⟩
  have h := foldl_left_clicks clicks MainWindow.init.image_label rfl
  simpa [MainWindow.init, ImageLabel.init] using h

/-- C9 counterexample: in the freshly initialized label no raster is
loaded (`image = none`) and both lists are empty, yet a left click at
(3, 4) appends the point to the foreground list — the click is not a
no-op as the claim states. -/
theorem C9_counterexample :
    ImageLabel.init.image = none ∧
      ImageLabel.init.points_foreground = [] ∧
      (ImageLabel.init.mousePressEvent MButton.left ((3:ℤ), (4:ℤ))).points_foreground
        = [((3:ℤ), (4:ℤ))] :=
  ⟨rfl, rfl, rfl⟩

/-- C9 amended: a click delivered while no raster is loaded is handled
exactly as with a raster loaded — the handler never inspects the image
field — and in particular a left click in foreground mode appends the
position to the foreground list even when `image = none`. -/
theorem C9_amended (st : ImageLabel) (r : Raster) (b : MButton) (pos : Point)
    (h : st.image = none) (hm : st.current_mode = Mode.foreground) :
    (st.mousePressEvent b pos).points_foreground
        = (({ st with image := some r } : ImageLabel).mousePressEvent b pos).points_foreground ∧
      (st.mousePressEvent b pos).points_background
        = (({ st with image := some r } : ImageLabel).mousePressEvent b pos).points_background ∧
      (st.mousePressEvent MButton.left pos).points_foreground
        = st.points_foreground ++ [pos] := by
  refine ⟨?_, ?_, by simp [ImageLabel.mousePressEvent, hm]⟩ <;>
    cases b <;>
    simp only [ImageLabel.mousePressEvent, ImageLabel.remove_point, hm] <;>
    cases hf : findMatch (st.point_size + 2) pos st.points_foreground <;>
    cases hb : findMatch (st.point_size + 2) pos st.points_background <;>
    simp [hf, hb]

/-- C9 witness: the amended theorem applied at the initial label state
with a concrete raster and click position. -/
theorem C9_witness :
    ImageLabel.init.image = none ∧
      ImageLabel.init.current_mode = Mode.foreground ∧
      (ImageLabel.init.mousePressEvent MButton.left ((3:ℤ), (4:ℤ))).points_foreground
        = ImageLabel.init.points_foreground ++ [((3:ℤ), (4:ℤ))] :=
  ⟨rfl, rfl,
    (C9_amended ImageLabel.init [[some 0]] MButton.left ((3:ℤ), (4:ℤ)) rfl rfl).2.2⟩

/-- C2: the claim states a flat slice (all values equal, so
`p99 = p01`) is special-cased to a uniform NaN-free raster; in the
code there is no special case — on the all-zero 2x2 slice the
normalization computes (0-0)/(0-0) and every pixel of the normalized
image is NaN (which then reaches the undefined NaN-to-uint8 cast). -/
theorem C2_flat_slice_nan :
    renderSlice [[0, 0], [0, 0]]
      = some [[NpVal.nan, NpVal.nan], [NpVal.nan, NpVal.nan]] := by
  norm_num [renderSlice, npPercentile, sortQ, insertSorted, npInterp, npClip, npDivVal,
    npMul255, show Int.toNat 2 = 2 from rfl, show Int.toNat 0 = 0 from rfl]

/-- C1: the claim states the archive always holds an (M+K)x2 `points`
array in insertion order and M ones followed by K zeros in `labels`,
with shape (0,2) for M=K=0.  In the code, with one foreground point
and no background points `np.vstack` raises an uncaught ValueError
(shapes (1,2) and (1,0) cannot be stacked), and with both lists empty
the call succeeds but writes a float `points` array of shape (2,0),
not an integer array of shape (0,2). -/
theorem C1_save_points_bug :
    MainWindow.save_points ⟨true, true, true⟩ wOneForeground
        = SaveOutcome.uncaught "ValueError" ∧
      MainWindow.save_points ⟨true, true, true⟩ MainWindow.init
        = SaveOutcome.saved
            { filename := ""
              points := { shape := [2, 0], data := [], isFloat := true }
              labels := { shape := [0], data := [], isFloat := false } } := by
  constructor <;> rfl

/-- C7 counterexample: when the `input_points` directory does not
exist and `os.makedirs` fails, the failure happens before the try
block of save_points and escapes the UI handler as an uncaught
exception instead of a modal notice, refuting the claim that every
failure of the save action is surfaced as a modal notice. -/
theorem C7_counterexample :
    MainWindow.save_points ⟨false, false, true⟩ MainWindow.init
      = SaveOutcome.uncaught "OSError: makedirs failed" := rfl

/-- C7 amended: only the archive write (`np.savez`) is guarded — its
failure is surfaced as a modal notice — while a failure to create the
output directory occurs before the try block and escapes the save
handler as an uncaught exception. -/
theorem C7_amended :
    (∀ (env : SaveEnv) (w : MainWindow), env.dirExists = false → env.makedirsOk = false →
        MainWindow.save_points env w = SaveOutcome.uncaught "OSError: makedirs failed") ∧
      ∀ (env : SaveEnv) (w : MainWindow) (a : NpArr),
        (env.dirExists = true ∨ env.makedirsOk = true) → env.savezOk = false →
        npVstack (np_array_points w.image_label.points_foreground)
            (np_array_points w.image_label.points_background) = Except.ok a →
        MainWindow.save_points env w = SaveOutcome.modalError := by
  constructor
  · intro env w h1 h2
    simp [MainWindow.save_points, h1, h2]
  · intro env w a hdir hz hv
    have hcond : (!env.dirExists && !env.makedirsOk) = false := by
      rcases hdir with h | h <;> simp [h]
    simp [MainWindow.save_points, hcond, hv, hz]

/-- C7 witness: the amended theorem at concrete inputs — a failing
makedirs gives an uncaught exception, and a failing savez with the
directory present gives the modal error dialog. -/
theorem C7_witness :
    MainWindow.save_points ⟨false, false, true⟩ wTwoSlices
        = SaveOutcome.uncaught "OSError: makedirs failed" ∧
      MainWindow.save_points ⟨true, true, false⟩ MainWindow.init
        = SaveOutcome.modalError :=
  ⟨C7_amended.1 ⟨false, false, true⟩ wTwoSlices rfl rfl,
    C7_amended.2 ⟨true, true, false⟩ MainWindow.init
      { shape := [2, 0], data := [], isFloat := true } (Or.inl rfl) rfl rfl⟩

/-- C3 counterexample: with foreground points [(5,0), (0,0)] and a
right click at (0,0), both points are within the radius 7, the
nearest is (0,0) at distance 0, yet remove_point removes the first
match in list order, (5,0), leaving [(0,0)] — refuting the claim that
the nearest match is removed. -/
theorem C3_counterexample :
    (stFirstMatch.remove_point ((0:ℤ), (0:ℤ))).points_foreground = [((0:ℤ), (0:ℤ))] ∧
      manhattan ((0:ℤ), (0:ℤ)) ((0:ℤ), (0:ℤ)) < manhattan ((5:ℤ), (0:ℤ)) ((0:ℤ), (0:ℤ)) ∧
      manhattan ((5:ℤ), (0:ℤ)) ((0:ℤ), (0:ℤ)) ≤ stFirstMatch.point_size + 2 ∧
      manhattan ((0:ℤ), (0:ℤ)) ((0:ℤ), (0:ℤ)) ≤ stFirstMatch.point_size + 2 := by
  refine ⟨?_, by decide, by decide, by decide⟩
  rfl

/-- C3 amended: remove_point removes at most one point per call and is
a no-op when no stored point lies within Manhattan distance
point_size + 2 of the position; when matches exist, the removed point
is the FIRST point in list order within the radius (foreground list
searched before background), not necessarily the nearest. -/
theorem C3_amended (st : ImageLabel) (pos : Point) :
    (st.points_foreground.length + st.points_background.length
        ≤ (st.remove_point pos).points_foreground.length
          + (st.remove_point pos).points_background.length + 1) ∧
      ((∀ p ∈ st.points_foreground, st.point_size + 2 < manhattan p pos) →
        (∀ p ∈ st.points_background, st.point_size + 2 < manhattan p pos) →
        st.remove_point pos = st) ∧
      (∀ i p, st.points_foreground[i]? = some p →
        manhattan p pos ≤ st.point_size + 2 →
        (∀ j q, j < i → st.points_foreground[j]? = some q →
          st.point_size + 2 < manhattan q pos) →
        (st.remove_point pos).points_foreground = st.points_foreground.eraseIdx i ∧
          (st.remove_point pos).points_background = st.points_background) ∧
      ((∀ p ∈ st.points_foreground, st.point_size + 2 < manhattan p pos) →
        ∀ i p, st.points_background[i]? = some p →
        manhattan p pos ≤ st.point_size + 2 →
        (∀ j q, j < i → st.points_background[j]? = some q →
          st.point_size + 2 < manhattan q pos) →
        (st.remove_point pos).points_background = st.points_background.eraseIdx i ∧
          (st.remove_point pos).points_foreground = st.points_foreground) := by
  refine ⟨?_, ?_, ?_, ?_⟩
  · simp only [ImageLabel.remove_point]
    cases hf : findMatch (st.point_size + 2) pos st.points_foreground with
    | some p =>
      have := listRemove_length p st.points_foreground
      simp only
      omega
    | none =>
      cases hb : findMatch (st.point_size + 2) pos st.points_background with
      | some p =>
        have := listRemove_length p st.points_background
        simp only
        omega
      | none => simp
  · intro hfg hbg
    simp [ImageLabel.remove_point, findMatch_eq_none _ _ _ hfg,
      findMatch_eq_none _ _ _ hbg]
  · intro i p hp hm hfar
    have hfind : findMatch (st.point_size + 2) pos st.points_foreground = some p :=
      findMatch_first _ _ _ i p hp hm hfar
    have hne : ∀ j q, j < i → st.points_foreground[j]? = some q → q ≠ p := by
      intro j q hj hq hqp
      subst hqp
      exact absurd hm (not_le.mpr (hfar j q hj hq))
    simp only [ImageLabel.remove_point, hfind]
    exact ⟨listRemove_eq_eraseIdx _ i p hp hne, trivial⟩
  · intro hfg i p hp hm hfar
    have hne : ∀ j q, j < i → st.points_background[j]? = some q → q ≠ p := by
      intro j q hj hq hqp
      subst hqp
      exact absurd hm (not_le.mpr (hfar j q hj hq))
    simp only [ImageLabel.remove_point, findMatch_eq_none _ _ _ hfg,
      findMatch_first _ _ _ i p hp hm hfar]
    exact ⟨listRemove_eq_eraseIdx _ i p hp hne, trivial⟩

/-- C3 witness: the amended theorem at the two-point fixture — the
first in-radius point (5,0) (index 0) is the one removed. -/
theorem C3_witness :
    stFirstMatch.points_foreground[0]? = some ((5:ℤ), (0:ℤ)) ∧
      manhattan ((5:ℤ), (0:ℤ)) ((0:ℤ), (0:ℤ)) ≤ stFirstMatch.point_size + 2 ∧
      (stFirstMatch.remove_point ((0:ℤ), (0:ℤ))).points_foreground
        = stFirstMatch.points_foreground.eraseIdx 0 := by
  refine ⟨by decide, by decide, ?_⟩
  exact ((C3_amended stFirstMatch ((0:ℤ), (0:ℤ))).2.2.1 0 ((5:ℤ), (0:ℤ))
    (by decide) (by decide) (fun j q hj _ => absurd hj (Nat.not_lt_zero j))).1

/-- C4 counterexample: with a 2-slice volume loaded and one foreground
point recorded, selecting slice 1 succeeds but empties the foreground
list — slice selection does NOT leave the point lists unchanged,
because the re-render goes through set_mrc_image which resets them. -/
theorem C4_counterexample :
    wTwoSlices.image_label.points_foreground = [((1:ℤ), (1:ℤ))] ∧
      (wTwoSlices.slice_changed 1).map (fun w => w.image_label.points_foreground)
        = some [] := by
  refine ⟨rfl, ?_⟩
  norm_num [wTwoSlices, MainWindow.slice_changed, MainWindow.show_mrc_slice, renderedRaster,
    renderSlice, npPercentile, sortQ, insertSorted, npInterp, npClip, npDivVal, npMul255,
    npCastUint8, ImageLabel.set_mrc_image, MainWindow.init, ImageLabel.init,
    show Int.toNat 0 = 0 from rfl, show Int.toNat 255 = 255 from rfl]

/-- C4 amended: any successful slice selection resets both point lists
to empty (the new raster is installed through set_mrc_image, the same
path as loading a new source); the lists survive no slice change. -/
theorem C4_amended (w w' : MainWindow) (i : ℕ)
    (h : w.slice_changed i = some w') :
    w'.image_label.points_foreground = [] ∧
      w'.image_label.points_background = [] := by
  simp only [MainWindow.slice_changed, MainWindow.show_mrc_slice, Option.bind_eq_bind,
    Option.bind_eq_some] at h
  obtain ⟨data, _, slice, _, raster, _, hpure⟩ := h
  cases hpure
  exact ⟨rfl, rfl⟩

/-- C4 witness: the amended theorem at the concrete 2-slice fixture,
whose slice change succeeds with the fully evaluated result state. -/
theorem C4_witness :
    wTwoSlices.slice_changed 1 = some wTwoSlicesAfter ∧
      wTwoSlicesAfter.image_label.points_foreground = [] ∧
      wTwoSlicesAfter.image_label.points_background = [] := by
  have h : wTwoSlices.slice_changed 1 = some wTwoSlicesAfter := by
    norm_num [wTwoSlices, wTwoSlicesAfter, MainWindow.slice_changed, MainWindow.show_mrc_slice,
      renderedRaster, renderSlice, npPercentile, sortQ, insertSorted, npInterp, npClip,
      npDivVal, npMul255, npCastUint8, ImageLabel.set_mrc_image, MainWindow.init,
      ImageLabel.init, show Int.toNat 0 = 0 from rfl, show Int.toNat 255 = 255 from rfl]
  exact ⟨h, C4_amended wTwoSlices wTwoSlicesAfter 1 h⟩

theorem show_mrc_slice_success (w : MainWindow) (data : List Slice) (i : ℕ)
    (hw : w.mrc_data = some data) (hi : i < data.length)
    (hne : ∀ s ∈ data, s.flatten ≠ []) :
    ∃ r : Raster, w.show_mrc_slice i
      = some { w with image_label := w.image_label.set_mrc_image r } := by
  have hmem : data[i] ∈ data := List.getElem_mem hi
  obtain ⟨p01, h1⟩ := npPercentile_isSome 1 data[i].flatten (hne _ hmem)
    (by norm_num) (by norm_num)
  obtain ⟨p99, h99⟩ := npPercentile_isSome 99 data[i].flatten (hne _ hmem)
    (by norm_num) (by norm_num)
  simp only [MainWindow.show_mrc_slice, hw, Option.bind_eq_bind, Option.some_bind,
    List.getElem?_eq_getElem hi, renderedRaster, renderSlice, h1, h99, Option.map_some]
  exact ⟨_, rfl⟩

/-- C8: on successfully loading a volumetric stack of depth D (every
slice nonempty), the current slice index is initialized to floor(D/2),
and every subsequent slice selection with an in-range index
(0 ≤ i ≤ D-1) recomputes the display raster without error and sets the
current slice to that index. -/
theorem C8_open_mid_slice_and_select (w : MainWindow) (data : List Slice) (fname : String)
    (hD : data ≠ []) (hne : ∀ s ∈ data, s.flatten ≠ []) :
    (∃ w2, w.open_mrc_file data fname = OpenResult.ok w2 ∧
        w2.current_slice = data.length / 2 ∧
        w2.mrc_data = some data ∧
        w2.total_slices = data.length - 1) ∧
      ∀ (w' : MainWindow) (i : ℕ), w'.mrc_data = some data → i ≤ data.length - 1 →
        ∃ w'', w'.slice_changed i = some w'' ∧ w''.current_slice = i ∧
          w''.mrc_data = some data := by
  have hlen : 0 < data.length := List.length_pos.mpr hD
  constructor
  · have hmid : data.length / 2 < data.length := Nat.div_lt_self hlen (by norm_num)
    obtain ⟨r, hr⟩ := show_mrc_slice_success
      { w with
        mrc_data := some data
        mrc_filename := fname
        current_slice := data.length / 2
        total_slices := data.length - 1 } data (data.length / 2) rfl hmid hne
    refine ⟨{ image_label := w.image_label.set_mrc_image r, mrc_data := some data,
              mrc_filename := fname, current_slice := data.length / 2,
              total_slices := data.length - 1 }, ?_, rfl, rfl, rfl⟩
    simp only [MainWindow.open_mrc_file, hr]
  · intro w' i hw' hi
    have hi' : i < data.length := by omega
    obtain ⟨r, hr⟩ := show_mrc_slice_success { w' with current_slice := i } data i hw' hi' hne
    exact ⟨_, hr, rfl, hw'⟩

/-- C8 witness: the theorem applied to the 10-slice stack fixture —
the load succeeds with current slice 10/2 = 5 and every in-range
selection (9 and 0 in particular) succeeds. -/
theorem C8_witness :
    (∃ w2, MainWindow.init.open_mrc_file stack10 "vol.mrc" = OpenResult.ok w2 ∧
        w2.current_slice = stack10.length / 2 ∧
        w2.mrc_data = some stack10 ∧
        w2.total_slices = stack10.length - 1) ∧
      ∀ (w' : MainWindow) (i : ℕ), w'.mrc_data = some stack10 → i ≤ stack10.length - 1 →
        ∃ w'', w'.slice_changed i = some w'' ∧ w''.current_slice = i ∧
          w''.mrc_data = some stack10 :=
  C8_open_mid_slice_and_select MainWindow.init stack10 "vol.mrc" (by decide) (by decide)

theorem cast_pixel (p01 p99 v : ℚ) (hlt : p01 < p99) :
    npCastUint8 (npMul255 (npDivVal (npClip v p01 p99 - p01) (p99 - p01)))
      = some (specPixel p01 p99 v) := by
  have hb : (0:ℚ) < p99 - p01 := sub_pos.mpr hlt
  have hb' : p99 - p01 ≠ 0 := ne_of_gt hb
  have hc1 : p01 ≤ npClip v p01 p99 :=
    le_min (le_max_right v p01) (le_of_lt hlt)
  have hc2 : npClip v p01 p99 ≤ p99 := min_le_right _ _
  have hd0 : 0 ≤ (npClip v p01 p99 - p01) / (p99 - p01) :=
    div_nonneg (by linarith) (le_of_lt hb)
  have hd1 : (npClip v p01 p99 - p01) / (p99 - p01) ≤ 1 :=
    (div_le_one hb).mpr (by linarith)
  have hq0 : 0 ≤ (npClip v p01 p99 - p01) / (p99 - p01) * 255 := by positivity
  have hq1 : (npClip v p01 p99 - p01) / (p99 - p01) * 255 < 256 := by nlinarith
  simp only [npDivVal, if_neg hb', npMul255, npCastUint8, if_pos (And.intro hq0 hq1)]
  rfl

/-- C5: for every slice whose 1st and 99th flattened percentiles
satisfy p99 > p01, the rendered 8-bit raster value at each pixel is
exactly the truncation of (clip(v, p01, p99) - p01) / (p99 - p01) *
255 of the original value v at that pixel (the spec-side formula
`specPixel`). -/
theorem C5_render_formula (slice : Slice) (p01 p99 : ℚ)
    (h1 : npPercentile 1 slice.flatten = some p01)
    (h99 : npPercentile 99 slice.flatten = some p99)
    (hlt : p01 < p99) :
    renderedRaster slice
      = some (slice.map (fun row => row.map (fun v => some (specPixel p01 p99 v)))) := by
  simp only [renderedRaster, renderSlice, h1, h99, Option.bind_eq_bind, Option.some_bind,
    Option.pure_def, Option.map_some']
  refine congrArg some ?_
  show List.map (fun row => List.map npCastUint8 row)
      (List.map (fun row => List.map (fun v =>
        npMul255 (npDivVal (npClip v p01 p99 - p01) (p99 - p01))) row) slice)
    = List.map (fun row => List.map (fun v => some (specPixel p01 p99 v)) row) slice
  rw [List.map_map]
  refine List.map_congr_left fun row _ => ?_
  simp only [Function.comp_apply]
  rw [List.map_map]
  refine List.map_congr_left fun v _ => ?_
  simp only [Function.comp_apply]
  exact cast_pixel p01 p99 v hlt

/-- C5 witness: the theorem at the concrete slice [[0, 100]], whose
percentiles are p01 = 1 and p99 = 99; the rendered raster is
[[0, 255]] as the formula prescribes. -/
theorem C5_witness :
    npPercentile 1 ([[(0:ℚ), 100]] : Slice).flatten = some 1 ∧
      npPercentile 99 ([[(0:ℚ), 100]] : Slice).flatten = some 99 ∧
      (1:ℚ) < 99 ∧
      renderedRaster [[(0:ℚ), 100]]
        = some ([[(0:ℚ), 100]].map
            (fun row => row.map (fun v => some (specPixel 1 99 v)))) := by
  have h1 : npPercentile 1 ([[(0:ℚ), 100]] : Slice).flatten = some 1 := by
    norm_num [npPercentile, sortQ, insertSorted, npInterp, show Int.toNat 0 = 0 from rfl]
  have h99 : npPercentile 99 ([[(0:ℚ), 100]] : Slice).flatten = some 99 := by
    norm_num [npPercentile, sortQ, insertSorted, npInterp, show Int.toNat 0 = 0 from rfl]
  exact ⟨h1, h99, by norm_num,
    C5_render_formula [[(0:ℚ), 100]] 1 99 h1 h99 (by norm_num)⟩
